import Mathlib

/-!
# Focus (focus-single): user service and session adapter

A shallow embedding of `app/internal/service/user.go` and
`internal/service/session/session.go`, followed by the properties of the
specification that concern them.

Conventions of the embedding.

* A Go `string` is a Lean `String`; where bytes matter (the digest) it is
  read through its UTF-8 encoding.
* `uint` is `Nat`, `int` is `Int`.
* A Go `error` result is `Except Error Unit`; a nil-pointer dereference is the
  error `Error.nilPointer`.
* Mutable state (the relational store, the request context with its session,
  the avatar directory) is passed explicitly: an operation takes the state it
  touches and returns its result together with the state it leaves behind.
* The user table carries creation and update timestamps. The service code never
  names them: the query builder stamps them itself on every insert and update,
  with the instant `now` of the store.
-/

set_option autoImplicit false

namespace Focus

/-! ## The digest: `gmd5.MustEncrypt` (MD5, RFC 1321) -/

namespace gmd5

/-- Per-round left-rotation amounts of MD5. -/
def shifts : List Nat :=
  [7, 12, 17, 22, 7, 12, 17, 22, 7, 12, 17, 22, 7, 12, 17, 22,
   5, 9, 14, 20, 5, 9, 14, 20, 5, 9, 14, 20, 5, 9, 14, 20,
   4, 11, 16, 23, 4, 11, 16, 23, 4, 11, 16, 23, 4, 11, 16, 23,
   6, 10, 15, 21, 6, 10, 15, 21, 6, 10, 15, 21, 6, 10, 15, 21]

/-- Sine table of MD5: entry `i` is `floor (2^32 * |sin (i + 1)|)`. -/
def sines : List Nat :=
  [0xd76aa478, 0xe8c7b756, 0x242070db, 0xc1bdceee,
   0xf57c0faf, 0x4787c62a, 0xa8304613, 0xfd469501,
   0x698098d8, 0x8b44f7af, 0xffff5bb1, 0x895cd7be,
   0x6b901122, 0xfd987193, 0xa679438e, 0x49b40821,
   0xf61e2562, 0xc040b340, 0x265e5a51, 0xe9b6c7aa,
   0xd62f105d, 0x02441453, 0xd8a1e681, 0xe7d3fbc8,
   0x21e1cde6, 0xc33707d6, 0xf4d50d87, 0x455a14ed,
   0xa9e3e905, 0xfcefa3f8, 0x676f02d9, 0x8d2a4c8a,
   0xfffa3942, 0x8771f681, 0x6d9d6122, 0xfde5380c,
   0xa4beea44, 0x4bdecfa9, 0xf6bb4b60, 0xbebfbc70,
   0x289b7ec6, 0xeaa127fa, 0xd4ef3085, 0x04881d05,
   0xd9d4d039, 0xe6db99e5, 0x1fa27cf8, 0xc4ac5665,
   0xf4292244, 0x432aff97, 0xab9423a7, 0xfc93a039,
   0x655b59c3, 0x8f0ccc92, 0xffeff47d, 0x85845dd1,
   0x6fa87e4f, 0xfe2ce6e0, 0xa3014314, 0x4e0811a1,
   0xf7537e82, 0xbd3af235, 0x2ad7d2bb, 0xeb86d391]

/-- Rotation of a 32-bit word to the left by `c` bits. -/
def leftRotate (x c : Nat) : Nat :=
  ((x <<< c) ||| (x >>> (32 - c))) % 4294967296

/-- Bitwise complement of a 32-bit word. -/
def not32 (x : Nat) : Nat := x ^^^ 4294967295

/-- Bytes of a string, as Go sees them (UTF-8). -/
def bytesOf (s : String) : List Nat :=
  s.data.flatMap fun c => (String.utf8EncodeChar c).map UInt8.toNat

/-- Little-endian bytes of `n`, `k` of them. -/
def leBytes : Nat → Nat → List Nat
  | 0, _ => []
  | k + 1, n => n % 256 :: leBytes k (n / 256)

/-- MD5 padding: a `0x80` byte, zeros up to 56 modulo 64, then the bit length
in 64 bits, little-endian. -/
def pad (msg : List Nat) : List Nat :=
  msg ++ 128 :: List.replicate ((119 - msg.length % 64) % 64) 0
    ++ leBytes 8 ((8 * msg.length) % 18446744073709551616)

/-- The sixteen little-endian 32-bit words of a 64-byte block. -/
def wordsOf : Nat → List Nat → List Nat
  | 0, _ => []
  | k + 1, bs =>
    (bs.getD 0 0 + 256 * bs.getD 1 0 + 65536 * bs.getD 2 0 + 16777216 * bs.getD 3 0)
      :: wordsOf k (bs.drop 4)

/-- Chaining state of MD5: the four 32-bit registers. -/
structure Digest where
  a : Nat
  b : Nat
  c : Nat
  d : Nat
deriving DecidableEq, Repr

/-- Initial chaining value. -/
def init : Digest := ⟨0x67452301, 0xefcdab89, 0x98badcfe, 0x10325476⟩

/-- One of the 64 operations of the compression function on the words `m`. -/
def step (m : List Nat) (s : Digest) (i : Nat) : Digest :=
  let f :=
    if i < 16 then (s.b &&& s.c) ||| (not32 s.b &&& s.d)
    else if i < 32 then (s.d &&& s.b) ||| (not32 s.d &&& s.c)
    else if i < 48 then s.b ^^^ s.c ^^^ s.d
    else s.c ^^^ (s.b ||| not32 s.d)
  let g :=
    if i < 16 then i
    else if i < 32 then (5 * i + 1) % 16
    else if i < 48 then (3 * i + 5) % 16
    else (7 * i) % 16
  let t := (f + s.a + sines.getD i 0 + m.getD g 0) % 4294967296
  ⟨s.d, (s.b + leftRotate t (shifts.getD i 0)) % 4294967296, s.b, s.c⟩

/-- Compression of one 64-byte block into the chaining state. -/
def compress (s : Digest) (block : List Nat) : Digest :=
  let r := (List.range 64).foldl (step (wordsOf 16 block)) s
  ⟨(s.a + r.a) % 4294967296, (s.b + r.b) % 4294967296,
   (s.c + r.c) % 4294967296, (s.d + r.d) % 4294967296⟩

/-- Compression of the first `n` blocks of `bs`. -/
def blocks : Nat → Digest → List Nat → Digest
  | 0, s, _ => s
  | n + 1, s, bs => blocks n (compress s (bs.take 64)) (bs.drop 64)

/-- The sixteen digest bytes of a byte string. -/
def sum (msg : List Nat) : List Nat :=
  let p := pad msg
  let r := blocks (p.length / 64) init p
  leBytes 4 r.a ++ leBytes 4 r.b ++ leBytes 4 r.c ++ leBytes 4 r.d

/-- Lower-case hexadecimal digit. -/
def hexDigit (n : Nat) : Char :=
  "0123456789abcdef".data.getD n '0'

/-- Lower-case hexadecimal rendering of a byte string (`%x`). -/
def hex (bs : List Nat) : String :=
  String.mk (bs.flatMap fun b => [hexDigit (b / 16), hexDigit (b % 16)])

/-- Embedding of `gmd5.MustEncrypt` on a string: the MD5 digest, in hex. -/
def MustEncrypt (data : String) : String :=
  hex (sum (bytesOf data))

end gmd5

/-! ## Errors -/

/-- The errors the service layer returns or lets through. -/
inductive Error where
  /-- Value of `gerror.New` / `gerror.Newf`: a domain error with its message. -/
  | New (text : String)
  /-- Value of `gerror.Wrapf`: an error wrapped with context. -/
  | Wrapf (cause : Error) (text : String)
  /-- Failure reported by the database driver. -/
  | store (text : String)
  /-- Failure reported by the session backend. -/
  | sessionStorage (text : String)
  /-- Failure reported by the avatar generator. -/
  | avatarFile (text : String)
  /-- Runtime panic raised by dereferencing a nil pointer. -/
  | nilPointer
  /-- Runtime panic raised by a `Must*` accessor on an error. -/
  | must (cause : Error)
deriving DecidableEq, Repr

/-! ## Data model -/

/-- Modelled from the spec: `model.User`, the row of the user table, whose
declaration is not among the sources; the columns are those the specification
lists for the table (id, passport, password, nickname, avatar, status, admin
flag, creation and update timestamps). Timestamps are instants counted in `Nat`. -/
structure User where
  Id : Nat
  Passport : String
  Password : String
  Nickname : String
  Avatar : String
  Status : Nat
  IsAdmin : Bool
  CreatedAt : Nat
  UpdatedAt : Nat
deriving DecidableEq, Repr

/-- Modelled from the spec: the row of the content table, whose declaration is
not among the sources; the columns are those the statistics read. -/
structure Content where
  Id : Nat
  Typ : String
  UserId : Nat
deriving DecidableEq, Repr

/-- Modelled from the spec: the row of the reply table, whose declaration is
not among the sources; the columns are those the statistics read. -/
structure Reply where
  Id : Nat
  UserId : Nat
deriving DecidableEq, Repr

/-- The relational store: the three tables, the fault (if any) with which the
driver answers every call, and the instant `now` with which the query builder
stamps the rows it writes. -/
structure Store where
  User : List User
  Content : List Content
  Reply : List Reply
  fault : Option String
  now : Nat
deriving DecidableEq, Repr

/-- Modelled from the spec: `model.ContextUser`, the request-scoped snapshot of
the current user, whose declaration is not among the sources; the fields are
those `Login` and `IsAdminShow` name. -/
structure ContextUser where
  Id : Nat
  Passport : String
  Nickname : String
  Avatar : String
  IsAdmin : Bool
deriving DecidableEq, Repr

/-- Type `Notice` of the session package: a one-shot message kept in the session. -/
structure Notice where
  Typ : String
  Content : String
deriving DecidableEq, Repr

/-- Content of a session, restricted to the three keys of the session package;
each field is named after the key it stands for and is `none` when the key is
absent. -/
structure SessionData where
  SessionKeyUser : Option User
  SessionKeyReferer : Option String
  SessionKeyNotice : Option Notice
deriving DecidableEq, Repr

/-- The framework session object: its data, and the fault (if any) with which
the backend answers every call. -/
structure Session where
  data : SessionData
  fault : Option String
deriving DecidableEq, Repr

/-- Modelled from the spec: `model.Context`, the per-request business context,
whose declaration is not among the sources; it holds the session object and the
current user (a nil pointer when nobody is logged in). -/
structure Context where
  Session : Session
  User : Option ContextUser
deriving DecidableEq, Repr

/-- What a Go `context.Context` carries for this code: the business context,
or nothing when none was injected. -/
abbrev Ctx := Option Context

/-- The avatar directory: paths of the files present, and the fault (if any)
with which a write fails. -/
structure FileSystem where
  files : List String
  fault : Option String
deriving DecidableEq, Repr

/-- Modelled from the spec: `model.UserLoginInput`, not among the sources. -/
structure UserLoginInput where
  Passport : String
  Password : String
deriving DecidableEq, Repr

/-- Modelled from the spec: `model.UserRegisterInput`, not among the sources. -/
structure UserRegisterInput where
  Passport : String
  Password : String
  Nickname : String
deriving DecidableEq, Repr

/-- Modelled from the spec: `model.UserPasswordInput`, not among the sources. -/
structure UserPasswordInput where
  OldPassword : String
  NewPassword : String
deriving DecidableEq, Repr

/-- Modelled from the spec: `model.UserUpdateProfileInput`, not among the sources;
the fields are those `UpdateProfile` and `UpdateAvatar` read. -/
structure UserUpdateProfileInput where
  Nickname : String
  Avatar : String
deriving DecidableEq, Repr

/-- Modelled from the spec: `model.UserGetMessageListInput`, not among the
sources; the fields are those `GetMessageList` reads. -/
structure UserGetMessageListInput where
  Page : Int
  Size : Int
  TargetType : String
  TargetId : Nat
  UserId : Nat
deriving DecidableEq, Repr

/-- Modelled from the spec: `model.ReplyGetListInput`, not among the sources; the
fields are those `GetMessageList` fills. -/
structure ReplyGetListInput where
  Page : Int
  Size : Int
  TargetType : String
  TargetId : Nat
  UserId : Nat
deriving DecidableEq, Repr

/-- Modelled from the spec: `model.ReplyGetListOutput`, not among the sources. -/
structure ReplyGetListOutput where
  List : List Reply
deriving DecidableEq, Repr

/-- A Go `map[string]int`, as an association list with distinct keys. -/
abbrev StatsMap := List (String × Int)

/-- Modelled from the spec: `model.UserGetMessageListOutput`, not among the
sources; the fields are those `GetMessageList` fills. -/
structure UserGetMessageListOutput where
  List : List Reply
  Page : Int
  Size : Int
  Stats : StatsMap
deriving DecidableEq, Repr

/-! ## The query builder (`gdb.Model`), as far as the service uses it -/

/-- A query under construction: the rows of its table, the conditions chained
so far, the fault of the store it will run against, and the automatic
maintenance of the update timestamp: `touch` is what the query builder does, on
its own, to every row an update writes (it sets the `updated_at` column of a
table that has one to the current instant). -/
structure Model (ρ : Type) where
  rows : List ρ
  conds : List (ρ → Bool)
  fault : Option String
  touch : ρ → ρ

namespace Model

variable {ρ : Type}

/-- Chaining of `Where(column, value)`: one more condition. -/
def Where (m : Model ρ) (cond : ρ → Bool) : Model ρ :=
  { m with conds := m.conds ++ [cond] }

/-- Chaining of `WhereNot(column, value)`: one more condition, negated. -/
def WhereNot (m : Model ρ) (cond : ρ → Bool) : Model ρ :=
  { m with conds := m.conds ++ [fun r => !cond r] }

/-- Whether a row satisfies every chained condition. -/
def selects (m : Model ρ) (r : ρ) : Bool :=
  m.conds.all fun cond => cond r

/-- The rows the query selects. -/
def selected (m : Model ρ) : List ρ :=
  m.rows.filter m.selects

/-- Terminal `Count()`. -/
def Count (m : Model ρ) : Except Error Int :=
  match m.fault with
  | some e => .error (.store e)
  | none => .ok (m.selected.length : Int)

/-- Terminal `Scan(&p)` into a nil pointer: the first selected row, and no
error when there is none. -/
def Scan (m : Model ρ) : Except Error (Option ρ) :=
  match m.fault with
  | some e => .error (.store e)
  | none => .ok m.selected.head?

/-- Terminal `Fields("count(*) total").One()`: the number of selected rows. -/
def CountOne (m : Model ρ) : Except Error Int :=
  match m.fault with
  | some e => .error (.store e)
  | none => .ok (m.selected.length : Int)

/-- Terminal `Fields(column, "count(*) total").Group(column).All()`: one record per
value of the column among the selected rows, with the number of those rows. -/
def GroupCountAll (m : Model ρ) (column : ρ → String) : Except Error (List (String × Int)) :=
  match m.fault with
  | some e => .error (.store e)
  | none =>
    .ok ((m.selected.map column).dedup.map fun v =>
      (v, ((m.selected.filter fun r => column r == v).length : Int)))

/-- Terminal `Data(d).Update()`: the table after `set` has been applied to the
selected rows and their update timestamp has been refreshed. -/
def Update (m : Model ρ) (set : ρ → ρ) : Except Error (List ρ) :=
  match m.fault with
  | some e => .error (.store e)
  | none => .ok (m.rows.map fun r => if m.selects r then m.touch (set r) else r)

end Model

/-- Field of a partial update under `OmitEmpty()`: an empty value is left out. -/
def omitEmpty (value current : String) : String :=
  if value = "" then current else value

namespace dao

/-- Modelled from the spec: `dao.User.Ctx(ctx)`, a query on the user table; the
dao package is not among the sources. -/
def User (db : Store) : Model Focus.User :=
  ⟨db.User, [], db.fault, fun r => { r with UpdatedAt := db.now }⟩

/-- Modelled from the spec: `dao.Content.Ctx(ctx)`, a query on the content table. -/
def Content (db : Store) : Model Focus.Content := ⟨db.Content, [], db.fault, id⟩

/-- Modelled from the spec: `dao.Reply.Ctx(ctx)`, a query on the reply table. -/
def Reply (db : Store) : Model Focus.Reply := ⟨db.Reply, [], db.fault, id⟩

/-- Next value of the auto-increment key of the user table. -/
def nextUserId (rows : List Focus.User) : Nat :=
  rows.foldl (fun n r => max n r.Id) 0 + 1

/-- Terminal `Data(user).OmitEmpty().Save()` on the user table: a row without key
is inserted under a fresh key; a row with a key replaces the non-empty columns
of the row with that key, or is inserted when there is none. An inserted row is
stamped with the current instant as creation and update time, a replaced row as
update time. -/
def Save (db : Store) (user : Focus.User) : Except Error (List Focus.User) :=
  match db.fault with
  | some e => .error (.store e)
  | none =>
    if user.Id = 0 then
      .ok (db.User ++
        [{ user with Id := nextUserId db.User, CreatedAt := db.now, UpdatedAt := db.now }])
    else if db.User.any (fun r => r.Id == user.Id) then
      .ok (db.User.map fun r =>
        if r.Id == user.Id then
          { r with
            Passport := omitEmpty user.Passport r.Passport
            Password := omitEmpty user.Password r.Password
            Nickname := omitEmpty user.Nickname r.Nickname
            Avatar := omitEmpty user.Avatar r.Avatar
            Status := if user.Status = 0 then r.Status else user.Status
            IsAdmin := user.IsAdmin || r.IsAdmin
            UpdatedAt := db.now }
        else r)
    else .ok (db.User ++ [{ user with CreatedAt := db.now, UpdatedAt := db.now }])

/-- Modelled from the spec: `dao.User.Transaction(ctx, f)`, the unit of work. It
runs `f` on the store; the writes of `f` to the store are kept when `f` returns
no error and discarded when it returns one. What `f` does outside the store
(`σ`) is not undone. -/
def Transaction {σ : Type} (db : Store) (s : σ)
    (f : Store → σ → Except Error Unit × Store × σ) : Except Error Unit × Store × σ :=
  match db.fault with
  | some e => (.error (.store e), db, s)
  | none =>
    match f db s with
    | (.ok (), db1, s1) => (.ok (), db1, s1)
    | (.error err, _, s1) => (.error err, db, s1)

end dao

/-- Generator `govatar.GenerateFileForUsername`: writes the avatar image of a
user name to `filePath`. -/
def govatar.GenerateFileForUsername (fs : FileSystem) (_username filePath : String) :
    Except Error FileSystem :=
  match fs.fault with
  | some e => .error (.avatarFile e)
  | none => .ok { fs with files := filePath :: fs.files.filter fun p => p != filePath }

/-! ## The framework session (`ghttp.Session`) -/

namespace Session

/-- Method `Session.Set(key, value)`; `put` writes the value under its key. -/
def Set (s : Session) (put : SessionData → SessionData) : Except Error Session :=
  match s.fault with
  | some e => .error (.sessionStorage e)
  | none => .ok { s with data := put s.data }

/-- Method `Session.Get(key)`; `key` reads the value under the key. -/
def Get {α : Type} (s : Session) (key : SessionData → Option α) : Except Error (Option α) :=
  match s.fault with
  | some e => .error (.sessionStorage e)
  | none => .ok (key s.data)

/-- Method `Session.MustGet(key)`: as `Get`, and a panic on error. -/
def MustGet {α : Type} (s : Session) (key : SessionData → Option α) : Except Error (Option α) :=
  match s.Get key with
  | .error e => .error (.must e)
  | .ok v => .ok v

/-- Method `Session.Remove(key)`; `del` erases the key. -/
def Remove (s : Session) (del : SessionData → SessionData) : Except Error Session :=
  match s.fault with
  | some e => .error (.sessionStorage e)
  | none => .ok { s with data := del s.data }

end Session

/-! ## `internal/service/session/session.go` -/

/-- Modelled from the spec: `bizctx.Get(ctx)` (`Context.Get(ctx)` in the user
service), not among the sources: the business context of the request, `none`
for a nil pointer. -/
def bizctx.Get (ctx : Ctx) : Option Context := ctx

namespace session

/-- The zero value `&entity.User{}`. -/
def emptyUser : User := ⟨0, "", "", "", "", 0, false, 0, 0⟩

/-- Embedding of `SetUser`. -/
def SetUser (ctx : Ctx) (user : User) : Except Error Unit × Ctx :=
  match bizctx.Get ctx with
  | none => (.error .nilPointer, ctx)
  | some customCtx =>
    match customCtx.Session.Set fun d => { d with SessionKeyUser := some user } with
    | .error err => (.error err, ctx)
    | .ok s => (.ok (), some { customCtx with Session := s })

/-- Embedding of `GetUser`. -/
def GetUser (ctx : Ctx) : User :=
  match bizctx.Get ctx with
  | some customCtx =>
    match customCtx.Session.Get fun d => d.SessionKeyUser with
    | .ok (some user) => user
    | _ => emptyUser
  | none => emptyUser

/-- Embedding of `RemoveUser`. -/
def RemoveUser (ctx : Ctx) : Except Error Unit × Ctx :=
  match bizctx.Get ctx with
  | some customCtx =>
    match customCtx.Session.Remove fun d => { d with SessionKeyUser := none } with
    | .error err => (.error err, ctx)
    | .ok s => (.ok (), some { customCtx with Session := s })
  | none => (.ok (), ctx)

/-- Embedding of `GetLoginReferer`; `.String()` of an absent value is empty. -/
def GetLoginReferer (ctx : Ctx) : Except Error String :=
  match bizctx.Get ctx with
  | some customCtx =>
    match customCtx.Session.MustGet fun d => d.SessionKeyReferer with
    | .error e => .error e
    | .ok v => .ok (v.getD "")
  | none => .ok ""

/-- Embedding of `SetLoginReferer`. -/
def SetLoginReferer (ctx : Ctx) (referer : String) : Except Error Unit × Ctx :=
  match GetLoginReferer ctx with
  | .error e => (.error e, ctx)
  | .ok current =>
    if current = "" then
      match bizctx.Get ctx with
      | some customCtx =>
        match customCtx.Session.Set fun d => { d with SessionKeyReferer := some referer } with
        | .error err => (.error err, ctx)
        | .ok s => (.ok (), some { customCtx with Session := s })
      | none => (.ok (), ctx)
    else (.ok (), ctx)

/-- Embedding of `RemoveLoginReferer`. -/
def RemoveLoginReferer (ctx : Ctx) : Except Error Unit × Ctx :=
  match bizctx.Get ctx with
  | some customCtx =>
    match customCtx.Session.Remove fun d => { d with SessionKeyReferer := none } with
    | .error err => (.error err, ctx)
    | .ok s => (.ok (), some { customCtx with Session := s })
  | none => (.ok (), ctx)

end session

/-- Modelled from the spec: `Context.SetUser` of the request context accessor,
which is not among the sources; it refreshes the request-scoped user. -/
def Context.SetUser (ctx : Ctx) (ctxUser : ContextUser) : Ctx :=
  match bizctx.Get ctx with
  | some c => some { c with User := some ctxUser }
  | none => none

/-- The dereference `Context.Get(ctx).User` followed by a field access: a panic
when either pointer is nil. -/
def Context.GetUser (ctx : Ctx) : Except Error ContextUser :=
  match bizctx.Get ctx with
  | none => .error .nilPointer
  | some c =>
    match c.User with
    | none => .error .nilPointer
    | some user => .ok user

/-! ## `app/internal/service/user.go`

The calls `Session.SetUser`, `Session.GetUser` and `Session.RemoveUser` of the
user service are the functions of the session package above, and its
`Context.Get` is `bizctx.Get`. The receiver is passed only to `Register`, the one
method that reads its fields. -/

/-- The user service: where avatars are stored and under which URL they are served. -/
structure userService where
  avatarUploadPath : String
  avatarUploadUrlPrefix : String
deriving DecidableEq, Repr

namespace userService

/-- Embedding of `EncryptPassword`. -/
def EncryptPassword (passport password : String) : String :=
  gmd5.MustEncrypt (passport ++ password)

/-- Embedding of `GetUserByPassportAndPassword`; `password` is the digest. -/
def GetUserByPassportAndPassword (db : Store) (passport password : String) :
    Except Error (Option User) :=
  (((dao.User db).Where fun r => r.Passport == passport).Where fun r =>
    r.Password == password).Scan

/-- Embedding of `Login`. -/
def Login (db : Store) (ctx : Ctx) (inp : UserLoginInput) : Except Error Unit × Ctx :=
  match GetUserByPassportAndPassword db inp.Passport
      (EncryptPassword inp.Passport inp.Password) with
  | .error err => (.error err, ctx)
  | .ok none => (.error (.New "账号或密码错误"), ctx)
  | .ok (some userEntity) =>
    match session.SetUser ctx userEntity with
    | (.error err, ctx1) => (.error err, ctx1)
    | (.ok (), ctx1) =>
      (.ok (), Context.SetUser ctx1
        ⟨userEntity.Id, userEntity.Passport, userEntity.Nickname, userEntity.Avatar, false⟩)

/-- Embedding of `Logout`. -/
def Logout (ctx : Ctx) : Except Error Unit × Ctx :=
  session.RemoveUser ctx

/-- Embedding of `CheckPassportUnique`. -/
def CheckPassportUnique (db : Store) (passport : String) : Except Error Unit :=
  match ((dao.User db).Where fun r => r.Passport == passport).Count with
  | .error err => .error err
  | .ok n =>
    if n > 0 then .error (.New ("账号\"" ++ passport ++ "\"已被占用"))
    else .ok ()

/-- Embedding of `CheckNicknameUnique`. -/
def CheckNicknameUnique (db : Store) (nickname : String) : Except Error Unit :=
  match ((dao.User db).Where fun r => r.Nickname == nickname).Count with
  | .error err => .error err
  | .ok n =>
    if n > 0 then .error (.New ("昵称\"" ++ nickname ++ "\"已被占用"))
    else .ok ()

/-- Embedding of `Register`. The conversion `gconv.Struct(in, &user)` copies the
three fields of the input into a fresh user and cannot fail on this type. -/
def Register (s : userService) (db : Store) (fs : FileSystem) (inp : UserRegisterInput) :
    Except Error Unit × Store × FileSystem :=
  dao.Transaction db fs fun db fs =>
    let user : User := ⟨0, inp.Passport, inp.Password, inp.Nickname, "", 0, false, 0, 0⟩
    match CheckPassportUnique db user.Passport with
    | .error err => (.error err, db, fs)
    | .ok () =>
      match CheckNicknameUnique db user.Nickname with
      | .error err => (.error err, db, fs)
      | .ok () =>
        let user := { user with Password := EncryptPassword user.Passport user.Password }
        let avatarFilePath := s.avatarUploadPath ++ "/" ++ user.Passport ++ ".jpg"
        match govatar.GenerateFileForUsername fs user.Passport avatarFilePath with
        | .error err => (.error (.Wrapf err "自动创建头像失败"), db, fs)
        | .ok fs1 =>
          let user :=
            { user with Avatar := s.avatarUploadUrlPrefix ++ "/" ++ user.Passport ++ ".jpg" }
          match dao.Save db user with
          | .error err => (.error err, db, fs1)
          | .ok rows => (.ok (), { db with User := rows }, fs1)

/-- Embedding of `UpdatePassword`. -/
def UpdatePassword (db : Store) (ctx : Ctx) (inp : UserPasswordInput) :
    Except Error Unit × Store :=
  let r := dao.Transaction db () fun db u =>
    match Context.GetUser ctx with
    | .error e => (.error e, db, u)
    | .ok user =>
      let oldPassword := EncryptPassword user.Passport inp.OldPassword
      match (((dao.User db).Where fun r => r.Password == oldPassword).Where fun r =>
          r.Id == user.Id).Count with
      | .error err => (.error err, db, u)
      | .ok n =>
        if n = 0 then (.error (.New "原始密码错误"), db, u)
        else
          let newPassword := EncryptPassword user.Passport inp.NewPassword
          match ((dao.User db).Where fun r => r.Id == user.Id).Update
              fun r => { r with Password := newPassword } with
          | .error err => (.error err, db, u)
          | .ok rows => (.ok (), { db with User := rows }, u)
  (r.1, r.2.1)

/-- Embedding of `UpdateProfile`. -/
def UpdateProfile (db : Store) (ctx : Ctx) (inp : UserUpdateProfileInput) :
    Except Error Unit × Store × Ctx :=
  dao.Transaction db ctx fun db ctx =>
    match Context.GetUser ctx with
    | .error e => (.error e, db, ctx)
    | .ok user =>
      let userId := user.Id
      match (((dao.User db).Where fun r => r.Nickname == inp.Nickname).WhereNot fun r =>
          r.Id == userId).Count with
      | .error err => (.error err, db, ctx)
      | .ok n =>
        if n > 0 then (.error (.New ("昵称\"" ++ inp.Nickname ++ "\"已被占用")), db, ctx)
        else
          match ((dao.User db).Where fun r => r.Id == userId).Update
              fun r => { r with
                Nickname := omitEmpty inp.Nickname r.Nickname
                Avatar := omitEmpty inp.Avatar r.Avatar } with
          | .error err => (.error err, db, ctx)
          | .ok rows =>
            if user.Nickname != inp.Nickname then
              let sessionUser := session.GetUser ctx
              let sessionUser := { sessionUser with Nickname := inp.Nickname }
              match session.SetUser ctx sessionUser with
              | (err, ctx1) => (err, { db with User := rows }, ctx1)
            else (.ok (), { db with User := rows }, ctx)

/-- Embedding of `IsAdminShow`. -/
def IsAdminShow (ctx : Ctx) (userId : Nat) : Bool :=
  match bizctx.Get ctx with
  | none => false
  | some c =>
    match c.User with
    | none => false
    | some user => if userId != user.Id then false else user.IsAdmin

/-- Assignment `m[key] = value` on a Go map. -/
def setKey (m : StatsMap) (key : String) (value : Int) : StatsMap :=
  if m.any (fun kv => kv.1 == key) then m.map fun kv => if kv.1 == key then (key, value) else kv
  else m ++ [(key, value)]

/-- Embedding of `GetUserStats`. -/
def GetUserStats (db : Store) (ctx : Ctx) (userId : Nat) : Except Error StatsMap :=
  let m := dao.Content db
  let m := if userId > 0 && !IsAdminShow ctx userId then m.Where fun r => r.UserId == userId else m
  match m.GroupCountAll fun r => r.Typ with
  | .error err => .error err
  | .ok statsAll =>
    let statsMap := statsAll.foldl (fun sm v => setKey sm v.1 v.2) []
    let replyModel := dao.Reply db
    let replyModel :=
      if userId > 0 && !IsAdminShow ctx userId then replyModel.Where fun r => r.UserId == userId
      else replyModel
    match replyModel.CountOne with
    | .error err => .error err
    | .ok total => .ok (setKey statsMap "message" total)

/-- Embedding of `GetMessageList`; `ReplyGetList` is the reply service's listing. -/
def GetMessageList (ReplyGetList : ReplyGetListInput → Except Error ReplyGetListOutput)
    (db : Store) (ctx : Ctx) (inp : UserGetMessageListInput) :
    Except Error UserGetMessageListOutput :=
  match Context.GetUser ctx with
  | .error e => .error e
  | .ok user =>
    let userId := user.Id
    let inp := if !IsAdminShow ctx userId then { inp with UserId := userId } else inp
    match ReplyGetList ⟨inp.Page, inp.Size, inp.TargetType, inp.TargetId, inp.UserId⟩ with
    | .error err => .error err
    | .ok replyList =>
      match GetUserStats db ctx userId with
      | .error err => .error err
      | .ok stats => .ok ⟨replyList.List, inp.Page, inp.Size, stats⟩

end userService

/-! ## Reading a statistics map -/

/-- Lookup `m[key]` on a Go map, `none` when the key is absent. -/
def getKey (m : StatsMap) (key : String) : Option Int :=
  (m.find? fun kv => kv.1 == key).map fun kv => kv.2

/-- Counts taken over a dataset, in the words of the specification: under each
content type that occurs, the number of content rows of that type; under
`"message"`, the number of reply rows. -/
def countsOver (contents : List Content) (replies : List Reply) (key : String) : Option Int :=
  if key = "message" then some (replies.length : Int)
  else if (contents.filter fun r => r.Typ == key).isEmpty then none
  else some ((contents.filter fun r => r.Typ == key).length : Int)

/-- A result of `GetUserStats` that is a map holding the counts over the given
content and reply rows. -/
def StatsAre (res : Except Error StatsMap) (contents : List Content) (replies : List Reply) :
    Prop :=
  ∃ m, res = .ok m ∧ ∀ key, getKey m key = countsOver contents replies key

/-! ## Reading the persisted row of a user -/

/-- The persisted row with the given id, if any. -/
def persistedUser (db : Store) (id : Nat) : Option User :=
  db.User.find? fun r => r.Id == id

/-! ## Properties -/

open userService session

/-! ### The credential digest -/

/-- C9: the digest depends only on the concatenation of account name and
password: `EncryptPassword (a ++ b) c = EncryptPassword a (b ++ c)` for all
strings, so the different pairs `("ab", "c")` and `("a", "bc")` receive the
same digest. -/
theorem EncryptPassword_concat :
    (∀ a b c : String, EncryptPassword (a ++ b) c = EncryptPassword a (b ++ c)) ∧
    (("ab", "c") ≠ (("a", "bc") : String × String) ∧
      EncryptPassword "ab" "c" = EncryptPassword "a" "bc") := by
  have h : ∀ a b c : String, EncryptPassword (a ++ b) c = EncryptPassword a (b ++ c) := by
    intro a b c
    unfold EncryptPassword
    rw [String.append_assoc]
  exact ⟨h, by decide, h "a" "b" "c"⟩

/-- C8, counterexample: two different account names which, with the same
password, receive the same digest. -/
theorem EncryptPassword_same_digest_for_two_accounts :
    "TEXTCOLLBYfGiJUETHQ4hA" ≠ "TEXTCOLLBYfGiJUETHQ4hE" ∧
    EncryptPassword "TEXTCOLLBYfGiJUETHQ4hA"
        "cKSMd5zYpgqf1YRDhkmxHkhPWptrkoyz28wnI9V0aHeAuaKnak" =
      EncryptPassword "TEXTCOLLBYfGiJUETHQ4hE"
        "cKSMd5zYpgqf1YRDhkmxHkhPWptrkoyz28wnI9V0aHeAuaKnak" := by
  constructor
  · decide
  · decide!

/-- C8, as amended: `EncryptPassword` is a function of its two arguments only,
and for every password `p` and different account names `a1`, `a2` the strings
that are digested, `a1 ++ p` and `a2 ++ p`, are different, so that the two
digests coincide exactly when MD5 collides on these two different strings. -/
theorem EncryptPassword_deterministic_and_separation :
    (∀ a a' p p' : String, a = a' → p = p' → EncryptPassword a p = EncryptPassword a' p') ∧
    (∀ p a1 a2 : String, a1 ≠ a2 →
      a1 ++ p ≠ a2 ++ p ∧
      (EncryptPassword a1 p = EncryptPassword a2 p ↔
        gmd5.MustEncrypt (a1 ++ p) = gmd5.MustEncrypt (a2 ++ p))) := by
  refine ⟨?_, ?_⟩
  · intro a a' p p' ha hp
    rw [ha, hp]
  · intro p a1 a2 hne
    refine ⟨?_, Iff.rfl⟩
    intro h
    apply hne
    have h1 : (a1 ++ p).data = (a2 ++ p).data := congrArg String.data h
    simp only [String.data_append] at h1
    exact String.ext (List.append_cancel_right h1)

/-- Witness of the amended C8 at two account names with a common password. -/
theorem EncryptPassword_deterministic_and_separation_witness :
    "alice" ++ "pw123" ≠ "bob" ++ "pw123" ∧
    (EncryptPassword "alice" "pw123" = EncryptPassword "bob" "pw123" ↔
      gmd5.MustEncrypt ("alice" ++ "pw123") = gmd5.MustEncrypt ("bob" ++ "pw123")) :=
  EncryptPassword_deterministic_and_separation.2 "pw123" "alice" "bob" (by decide)

/-! ### The login referer -/

/-- C4, counterexample: when the first URL is the empty string, the second
`SetLoginReferer` is not a no-op and `GetLoginReferer` returns the second URL. -/
theorem SetLoginReferer_empty_first_is_overwritten :
    ("" : String) ≠ "/user/profile" ∧
    GetLoginReferer
        (SetLoginReferer
          (SetLoginReferer (some ⟨⟨⟨none, none, none⟩, none⟩, none⟩) "").2
          "/user/profile").2
      = .ok "/user/profile" := by
  constructor
  · decide
  · rfl

/-- C4, as amended: in a session with a non-nil request context, a working
backend and no stored login referer, for every non-empty URL `a` and every URL
`b`: `SetLoginReferer a` then `SetLoginReferer b` both succeed and
`GetLoginReferer` returns `a`; after a further `RemoveLoginReferer` and
`SetLoginReferer b`, which succeed too, `GetLoginReferer` returns `b`. -/
theorem SetLoginReferer_first_write_wins (c : Context) (a b : String)
    (hfault : c.Session.fault = none)
    (hunset : c.Session.data.SessionKeyReferer = none)
    (ha : a ≠ "") :
    (SetLoginReferer (some c) a).1 = .ok () ∧
    (SetLoginReferer (SetLoginReferer (some c) a).2 b).1 = .ok () ∧
    GetLoginReferer (SetLoginReferer (SetLoginReferer (some c) a).2 b).2 = .ok a ∧
    (RemoveLoginReferer (SetLoginReferer (SetLoginReferer (some c) a).2 b).2).1 = .ok () ∧
    (SetLoginReferer
      (RemoveLoginReferer (SetLoginReferer (SetLoginReferer (some c) a).2 b).2).2 b).1
      = .ok () ∧
    GetLoginReferer
      (SetLoginReferer
        (RemoveLoginReferer (SetLoginReferer (SetLoginReferer (some c) a).2 b).2).2 b).2
      = .ok b := by
  obtain ⟨⟨data, fault⟩, user⟩ := c
  obtain ⟨su, sr, sn⟩ := data
  simp only at hfault hunset
  subst hfault hunset
  simp [SetLoginReferer, GetLoginReferer, RemoveLoginReferer, bizctx.Get, Session.MustGet,
    Session.Get, Session.Set, Session.Remove, ha]

/-- Witness of the amended C4 on a fresh session. -/
theorem SetLoginReferer_first_write_wins_witness :
    GetLoginReferer
        (SetLoginReferer
          (SetLoginReferer (some ⟨⟨⟨none, none, none⟩, none⟩, none⟩) "/content/1").2
          "/user/profile").2
      = .ok "/content/1" :=
  (SetLoginReferer_first_write_wins ⟨⟨⟨none, none, none⟩, none⟩, none⟩
    "/content/1" "/user/profile" rfl rfl (by decide)).2.2.1

/-! ### Queries on a working store -/

/-- A filtered list is non-empty exactly when some element passes the filter. -/
theorem filter_length_pos_iff {ρ : Type} (l : List ρ) (p : ρ → Bool) :
    (0 : Int) < ((l.filter p).length : Int) ↔ ∃ x ∈ l, p x = true := by
  rw [Int.natCast_pos, List.length_pos]
  constructor
  · intro h
    obtain ⟨x, hx⟩ := List.exists_mem_of_ne_nil _ h
    rw [List.mem_filter] at hx
    exact ⟨x, hx.1, hx.2⟩
  · rintro ⟨x, hx, hp⟩ hnil
    have : x ∈ l.filter p := List.mem_filter.mpr ⟨hx, hp⟩
    rw [hnil] at this
    exact List.not_mem_nil _ this

/-- On a working store `CheckPassportUnique` fails exactly when the account
name is in use. -/
theorem CheckPassportUnique_eq (db : Store) (passport : String) (h : db.fault = none) :
    CheckPassportUnique db passport =
      if ∃ u ∈ db.User, u.Passport = passport then
        .error (.New ("账号\"" ++ passport ++ "\"已被占用"))
      else .ok () := by
  simp only [CheckPassportUnique, Model.Count, Model.Where, dao.User, h, Model.selected,
    gt_iff_lt, filter_length_pos_iff]
  simp [Model.selects]

/-- On a working store `CheckNicknameUnique` fails exactly when the nickname is
in use. -/
theorem CheckNicknameUnique_eq (db : Store) (nickname : String) (h : db.fault = none) :
    CheckNicknameUnique db nickname =
      if ∃ u ∈ db.User, u.Nickname = nickname then
        .error (.New ("昵称\"" ++ nickname ++ "\"已被占用"))
      else .ok () := by
  simp only [CheckNicknameUnique, Model.Count, Model.Where, dao.User, h, Model.selected,
    gt_iff_lt, filter_length_pos_iff]
  simp [Model.selects]

/-! ### Registration -/

/-- C3: on a working store, if some existing user has the input's account name
`Register` fails with the account-taken error; otherwise, if some existing user
has the input's nickname, it fails with the nickname-taken error; in both cases
the store (hence the user table) and the avatar directory are returned as they
were. -/
theorem Register_rejects_taken_names (s : userService) (db : Store) (fs : FileSystem)
    (inp : UserRegisterInput) (hfault : db.fault = none) :
    ((∃ u ∈ db.User, u.Passport = inp.Passport) →
      (Register s db fs inp).1 = .error (.New ("账号\"" ++ inp.Passport ++ "\"已被占用")) ∧
      (Register s db fs inp).2.1.User = db.User ∧
      (Register s db fs inp).2 = (db, fs)) ∧
    ((¬ ∃ u ∈ db.User, u.Passport = inp.Passport) →
      (∃ u ∈ db.User, u.Nickname = inp.Nickname) →
      (Register s db fs inp).1 = .error (.New ("昵称\"" ++ inp.Nickname ++ "\"已被占用")) ∧
      (Register s db fs inp).2.1.User = db.User ∧
      (Register s db fs inp).2 = (db, fs)) := by
  constructor
  · intro hp
    simp [Register, dao.Transaction, hfault, CheckPassportUnique_eq, hp]
  · intro hp hn
    simp [Register, dao.Transaction, hfault, CheckPassportUnique_eq, CheckNicknameUnique_eq,
      hp, hn]

/-- Witness of C3: an account name that is taken, on a one-row table. -/
theorem Register_rejects_taken_names_witness :
    (Register ⟨"/data/upload/avatar", "/upload/avatar"⟩
        ⟨[⟨1, "alice", "0f", "Alice", "/upload/avatar/alice.jpg", 0, false, 10, 10⟩], [], [], none, 50⟩
        ⟨[], none⟩ ⟨"alice", "pw123", "Al"⟩).1
      = .error (.New ("账号\"" ++ "alice" ++ "\"已被占用")) :=
  ((Register_rejects_taken_names ⟨"/data/upload/avatar", "/upload/avatar"⟩
    ⟨[⟨1, "alice", "0f", "Alice", "/upload/avatar/alice.jpg", 0, false, 10, 10⟩], [], [], none, 50⟩
    ⟨[], none⟩ ⟨"alice", "pw123", "Al"⟩ rfl).1
      ⟨⟨1, "alice", "0f", "Alice", "/upload/avatar/alice.jpg", 0, false, 10, 10⟩, by simp, rfl⟩).1

/-! ### Password change -/

/-- A filtered list has length zero exactly when no element passes the filter. -/
theorem filter_length_eq_zero_iff {ρ : Type} (l : List ρ) (p : ρ → Bool) :
    ((l.filter p).length : Int) = 0 ↔ ¬ ∃ x ∈ l, p x = true := by
  rw [← filter_length_pos_iff]
  omega

/-- The rows `UpdatePassword` counts are those with the id of the current user
and the digest of the old password. -/
theorem UpdatePassword_count_zero_iff (db : Store) (u : ContextUser) (old : String) :
    ((((dao.User db).Where fun r => r.Password == EncryptPassword u.Passport old).Where
        fun r => r.Id == u.Id).selected.length : Int) = 0 ↔
      ¬ ∃ r ∈ db.User, r.Id = u.Id ∧ r.Password = EncryptPassword u.Passport old := by
  rw [Model.selected, filter_length_eq_zero_iff]
  simp only [Model.Where, dao.User, Model.selects, List.nil_append, List.cons_append,
    List.all_cons, List.all_nil, Bool.and_true, Bool.and_eq_true, beq_iff_eq]
  constructor
  · rintro h ⟨r, hr, h1, h2⟩
    exact h ⟨r, hr, h2, h1⟩
  · rintro h ⟨r, hr, h2, h1⟩
    exact h ⟨r, hr, h1, h2⟩

/-- Value of `UpdatePassword` on a working store when no row has the id of the
current user and the digest of the old password. -/
theorem UpdatePassword_wrong_old (db : Store) (c : Context) (u : ContextUser)
    (inp : UserPasswordInput) (hfault : db.fault = none) (huser : c.User = some u)
    (hrow : ¬ ∃ r ∈ db.User, r.Id = u.Id ∧
      r.Password = EncryptPassword u.Passport inp.OldPassword) :
    UpdatePassword db (some c) inp = (.error (.New "原始密码错误"), db) := by
  have hn := (UpdatePassword_count_zero_iff db u inp.OldPassword).mpr hrow
  simp only [UpdatePassword, dao.Transaction, hfault, Context.GetUser, bizctx.Get, huser,
    Model.Count]
  simp only [Model.Where, dao.User, hfault] at hn ⊢
  rw [if_pos hn]

/-- Value of `UpdatePassword` on a working store when some row has the id of the
current user and the digest of the old password. -/
theorem UpdatePassword_right_old (db : Store) (c : Context) (u : ContextUser)
    (inp : UserPasswordInput) (hfault : db.fault = none) (huser : c.User = some u)
    (hrow : ∃ r ∈ db.User, r.Id = u.Id ∧
      r.Password = EncryptPassword u.Passport inp.OldPassword) :
    UpdatePassword db (some c) inp =
      (.ok (), { db with
        User := db.User.map fun r =>
          if r.Id = u.Id then
            { r with
              Password := EncryptPassword u.Passport inp.NewPassword
              UpdatedAt := db.now }
          else r }) := by
  have hn : ¬ ((((dao.User db).Where fun r =>
        r.Password == EncryptPassword u.Passport inp.OldPassword).Where
          fun r => r.Id == u.Id).selected.length : Int) = 0 := by
    rw [UpdatePassword_count_zero_iff]
    exact fun h => h hrow
  simp only [UpdatePassword, dao.Transaction, hfault, Context.GetUser, bizctx.Get, huser,
    Model.Count, Model.Update]
  simp only [Model.Where, dao.User, hfault] at hn ⊢
  rw [if_neg hn]
  simp [Model.selects]

/-- C6, counterexample: user 7 changes the password from `old` to `new` at
instant 200 on a row last updated at instant 100. `UpdatePassword` succeeds and
the row carries the digest of `new`, but its update timestamp, a column other
than the password, is 200 afterwards: not every other field is unchanged. -/
theorem UpdatePassword_refreshes_update_time :
    EncryptPassword "bob" "old" = "9e71f12f673e8e66274a96e5f549bda2" ∧
    EncryptPassword "bob" "new" = "c42ae07487ad19b9410cc5087a237e29" ∧
    UpdatePassword
        ⟨[⟨7, "bob", "9e71f12f673e8e66274a96e5f549bda2", "Bob", "", 0, false, 100, 100⟩],
          [], [], none, 200⟩
        (some ⟨⟨⟨none, none, none⟩, none⟩, some ⟨7, "bob", "Bob", "", false⟩⟩)
        ⟨"old", "new"⟩ =
      (.ok (),
        ⟨[⟨7, "bob", "c42ae07487ad19b9410cc5087a237e29", "Bob", "", 0, false, 100, 200⟩],
          [], [], none, 200⟩) ∧
    (100 : Nat) ≠ 200 := by
  have hold : EncryptPassword "bob" "old" = "9e71f12f673e8e66274a96e5f549bda2" := by decide!
  have hnew : EncryptPassword "bob" "new" = "c42ae07487ad19b9410cc5087a237e29" := by decide!
  refine ⟨hold, hnew, ?_, by decide⟩
  rw [UpdatePassword_right_old _ ⟨⟨⟨none, none, none⟩, none⟩, some ⟨7, "bob", "Bob", "", false⟩⟩
    ⟨7, "bob", "Bob", "", false⟩ ⟨"old", "new"⟩ rfl rfl
    ⟨⟨7, "bob", "9e71f12f673e8e66274a96e5f549bda2", "Bob", "", 0, false, 100, 100⟩,
      by simp, rfl, hold.symm⟩]
  simp [hnew]

/-- C6, as amended: on a working store and for an authenticated user `u`,
`UpdatePassword` fails with the wrong-old-password error exactly when no row
has the id of `u` and the digest of the old password; it then leaves the store
as it was. Otherwise it succeeds and the user table afterwards is the table
before in which, in every row with the id of `u`, the password is the digest of
the new password and the update timestamp is the instant of the update, every
other row and every other column being as before. -/
theorem UpdatePassword_spec (db : Store) (c : Context) (u : ContextUser)
    (inp : UserPasswordInput) (hfault : db.fault = none) (huser : c.User = some u) :
    ((UpdatePassword db (some c) inp).1 = .error (.New "原始密码错误") ↔
      ¬ ∃ r ∈ db.User, r.Id = u.Id ∧ r.Password = EncryptPassword u.Passport inp.OldPassword) ∧
    ((¬ ∃ r ∈ db.User, r.Id = u.Id ∧ r.Password = EncryptPassword u.Passport inp.OldPassword) →
      (UpdatePassword db (some c) inp).2 = db) ∧
    ((∃ r ∈ db.User, r.Id = u.Id ∧ r.Password = EncryptPassword u.Passport inp.OldPassword) →
      (UpdatePassword db (some c) inp).1 = .ok () ∧
      (UpdatePassword db (some c) inp).2 =
        { db with
          User := db.User.map fun r =>
            if r.Id = u.Id then
              { r with
                Password := EncryptPassword u.Passport inp.NewPassword
                UpdatedAt := db.now }
            else r }) := by
  by_cases hrow : ∃ r ∈ db.User, r.Id = u.Id ∧
      r.Password = EncryptPassword u.Passport inp.OldPassword
  · rw [UpdatePassword_right_old db c u inp hfault huser hrow]
    simp [hrow]
  · rw [UpdatePassword_wrong_old db c u inp hfault huser hrow]
    simp [hrow]

/-- Witness of the amended C6: user 7 changes the password on a one-row table. -/
theorem UpdatePassword_spec_witness :
    (UpdatePassword
        ⟨[⟨7, "bob", EncryptPassword "bob" "old", "Bob", "", 0, false, 10, 10⟩], [], [], none, 50⟩
        (some ⟨⟨⟨none, none, none⟩, none⟩, some ⟨7, "bob", "Bob", "", false⟩⟩)
        ⟨"old", "new"⟩).1 = .ok () :=
  ((UpdatePassword_spec
    ⟨[⟨7, "bob", EncryptPassword "bob" "old", "Bob", "", 0, false, 10, 10⟩], [], [], none, 50⟩
    ⟨⟨⟨none, none, none⟩, none⟩, some ⟨7, "bob", "Bob", "", false⟩⟩ ⟨7, "bob", "Bob", "", false⟩
    ⟨"old", "new"⟩ rfl rfl).2.2
      ⟨⟨7, "bob", EncryptPassword "bob" "old", "Bob", "", 0, false, 10, 10⟩, by simp, rfl, rfl⟩).1

/-! ### Login -/

/-- The rows `GetUserByPassportAndPassword` selects. -/
theorem GetUserByPassportAndPassword_eq (db : Store) (passport password : String)
    (h : db.fault = none) :
    GetUserByPassportAndPassword db passport password =
      .ok (db.User.filter fun r => r.Passport == passport && r.Password == password).head? := by
  simp only [GetUserByPassportAndPassword, Model.Scan, Model.Where, dao.User, h, Model.selected]
  congr 2
  apply List.filter_congr
  intro r _
  simp [Model.selects]

/-- A failed `SetUser` leaves the context as it was. -/
theorem SetUser_error_unchanged (ctx : Ctx) (user : User) (e : Error)
    (h : (SetUser ctx user).1 = .error e) : (SetUser ctx user).2 = ctx := by
  unfold SetUser at h ⊢
  cases ctx with
  | none => rfl
  | some c =>
    simp only [bizctx.Get] at h ⊢
    cases hs : c.Session.Set fun d => { d with SessionKeyUser := some user } with
    | error err => rfl
    | ok s => simp [hs] at h

/-- The error of a failed `SetUser` is not a domain error. -/
theorem SetUser_error_not_New (ctx : Ctx) (user : User) (text : String) :
    (SetUser ctx user).1 ≠ .error (.New text) := by
  unfold SetUser
  cases ctx with
  | none => simp [bizctx.Get]
  | some c =>
    simp only [bizctx.Get, Session.Set]
    cases c.Session.fault <;> simp

/-- C7: on a working store, `Login` returns the invalid-credentials error
exactly when no user row has both the account name and the digest of the
password; an existing account with a wrong password and an unknown account
receive the same error; and whenever `Login` fails, the request context, with
the session in it, is returned as it was. -/
theorem Login_invalid_credentials (db : Store) (ctx : Ctx) (inp : UserLoginInput)
    (hfault : db.fault = none) :
    ((Login db ctx inp).1 = .error (.New "账号或密码错误") ↔
      ¬ ∃ r ∈ db.User, r.Passport = inp.Passport ∧
        r.Password = EncryptPassword inp.Passport inp.Password) ∧
    (∀ other : UserLoginInput,
      (∃ r ∈ db.User, r.Passport = inp.Passport) →
      (¬ ∃ r ∈ db.User, r.Passport = inp.Passport ∧
        r.Password = EncryptPassword inp.Passport inp.Password) →
      (¬ ∃ r ∈ db.User, r.Passport = other.Passport) →
      (Login db ctx inp).1 = (Login db ctx other).1) ∧
    (∀ e, (Login db ctx inp).1 = .error e →
      (Login db ctx inp).2 = ctx ∧ GetUser (Login db ctx inp).2 = GetUser ctx) := by
  have hnone : ∀ i : UserLoginInput,
      (¬ ∃ r ∈ db.User, r.Passport = i.Passport ∧
        r.Password = EncryptPassword i.Passport i.Password) →
      Login db ctx i = (.error (.New "账号或密码错误"), ctx) := by
    intro i hno
    have hnil : (db.User.filter fun r => r.Passport == i.Passport &&
        r.Password == EncryptPassword i.Passport i.Password) = [] := by
      rw [List.filter_eq_nil_iff]
      intro r hr hsel
      simp only [Bool.and_eq_true, beq_iff_eq] at hsel
      exact hno ⟨r, hr, hsel⟩
    simp [Login, GetUserByPassportAndPassword_eq, hfault, hnil]
  refine ⟨?_, ?_, ?_⟩
  · constructor
    · intro herr hex
      obtain ⟨r, hr, h1, h2⟩ := hex
      have hmem : r ∈ db.User.filter fun r => r.Passport == inp.Passport &&
          r.Password == EncryptPassword inp.Passport inp.Password := by
        rw [List.mem_filter]
        exact ⟨hr, by simp [h1, h2]⟩
      cases hfl : (db.User.filter fun r => r.Passport == inp.Passport &&
          r.Password == EncryptPassword inp.Passport inp.Password) with
      | nil => rw [hfl] at hmem; exact List.not_mem_nil _ hmem
      | cons x xs =>
        simp only [Login, GetUserByPassportAndPassword_eq, hfault, hfl, List.head?_cons] at herr
        have hne := SetUser_error_not_New ctx x "账号或密码错误"
        cases hset : SetUser ctx x with
        | mk res ctx1 =>
          rw [hset] at herr hne
          cases res with
          | error err => exact hne (by simpa using herr)
          | ok v => simp at herr
    · intro hno
      rw [hnone inp hno]
  · intro other _ hno hother
    rw [hnone inp hno, hnone other (fun ⟨r, hr, h1, _⟩ => hother ⟨r, hr, h1⟩)]
  · intro e herr
    have hctx : (Login db ctx inp).2 = ctx := by
      cases hfl : (db.User.filter fun r => r.Passport == inp.Passport &&
          r.Password == EncryptPassword inp.Passport inp.Password) with
      | nil => simp [Login, GetUserByPassportAndPassword_eq, hfault, hfl]
      | cons x xs =>
        simp only [Login, GetUserByPassportAndPassword_eq, hfault, hfl, List.head?_cons]
          at herr ⊢
        have hun := SetUser_error_unchanged ctx x
        cases hset : SetUser ctx x with
        | mk res ctx1 =>
          rw [hset] at herr hun
          cases res with
          | error err => exact hun err rfl
          | ok v => simp at herr
    exact ⟨hctx, by rw [hctx]⟩

/-- Witness of C7: an unknown account on an empty user table. -/
theorem Login_invalid_credentials_witness :
    (Login ⟨[], [], [], none, 50⟩ (some ⟨⟨⟨none, none, none⟩, none⟩, none⟩) ⟨"alice", "pw123"⟩).1
      = .error (.New "账号或密码错误") :=
  (Login_invalid_credentials ⟨[], [], [], none, 50⟩ (some ⟨⟨⟨none, none, none⟩, none⟩, none⟩)
    ⟨"alice", "pw123"⟩ rfl).1.mpr (by simp)

/-! ### Message list -/

/-- For the current user's own id, `IsAdminShow` is the admin flag. -/
theorem IsAdminShow_self (c : Context) (u : ContextUser) (h : c.User = some u) :
    IsAdminShow (some c) u.Id = u.IsAdmin := by
  simp [IsAdminShow, bizctx.Get, h]

/-- C2: for every input and authenticated current user `u`, `GetMessageList`
calls the reply listing with the input's `Page`, `Size`, `TargetType` and
`TargetId` unchanged and with the user filter `u.Id` when `u` is not an admin,
the caller-supplied `UserId` when `u` is an admin; its own result is built from
the result of that call and the statistics of `u`. -/
theorem GetMessageList_user_filter
    (ReplyGetList : ReplyGetListInput → Except Error ReplyGetListOutput)
    (db : Store) (c : Context) (u : ContextUser) (inp : UserGetMessageListInput)
    (huser : c.User = some u) :
    GetMessageList ReplyGetList db (some c) inp =
      (ReplyGetList
        { Page := inp.Page
          Size := inp.Size
          TargetType := inp.TargetType
          TargetId := inp.TargetId
          UserId := if u.IsAdmin = true then inp.UserId else u.Id }).bind fun replyList =>
        (GetUserStats db (some c) u.Id).bind fun stats =>
          .ok ⟨replyList.List, inp.Page, inp.Size, stats⟩ := by
  simp only [GetMessageList, Context.GetUser, bizctx.Get, huser, IsAdminShow_self c u huser]
  cases hadmin : u.IsAdmin
  · simp only [Bool.not_false, if_true, Except.bind]
    split <;> simp_all
    split <;> simp_all
  · simp only [Bool.not_true, Except.bind]
    split <;> simp_all
    split <;> simp_all

/-- Witness of C2: a non-admin asks for the messages of another user; the
listing receives the caller's own id (the stub reports the filter it was given
in the id of a reply). -/
theorem GetMessageList_user_filter_witness :
    GetMessageList (fun q => .ok ⟨[⟨0, q.UserId⟩]⟩) ⟨[], [], [], none, 50⟩
        (some ⟨⟨⟨none, none, none⟩, none⟩, some ⟨2, "bob", "Bob", "", false⟩⟩)
        ⟨1, 10, "content", 5, 9⟩ =
      (Except.ok ⟨[⟨0, 2⟩]⟩ : Except Error ReplyGetListOutput).bind fun replyList =>
        (GetUserStats ⟨[], [], [], none, 50⟩
          (some ⟨⟨⟨none, none, none⟩, none⟩, some ⟨2, "bob", "Bob", "", false⟩⟩) 2).bind
          fun stats => .ok ⟨replyList.List, 1, 10, stats⟩ :=
  GetMessageList_user_filter (fun q => .ok ⟨[⟨0, q.UserId⟩]⟩) ⟨[], [], [], none, 50⟩
    ⟨⟨⟨none, none, none⟩, none⟩, some ⟨2, "bob", "Bob", "", false⟩⟩ ⟨2, "bob", "Bob", "", false⟩
    ⟨1, 10, "content", 5, 9⟩ rfl

/-! ### Statistics -/

/-- Reading a key in an empty map. -/
theorem getKey_nil (key : String) : getKey [] key = none := rfl

/-- Reading a key in a map with one more leading entry. -/
theorem getKey_cons (x : String × Int) (xs : StatsMap) (key : String) :
    getKey (x :: xs) key = if x.1 = key then some x.2 else getKey xs key := by
  by_cases h : x.1 = key
  · simp [getKey, List.find?, h]
  · have hb : (x.1 == key) = false := by simpa using h
    simp [getKey, List.find?, h, hb]

/-- A key that no entry carries reads as absent. -/
theorem getKey_absent (m : StatsMap) (k : String)
    (h : ¬ (m.any fun kv => kv.1 == k) = true) : getKey m k = none := by
  induction m with
  | nil => rfl
  | cons x xs ih =>
    simp only [List.any_cons, Bool.or_eq_true, beq_iff_eq, not_or] at h
    rw [getKey_cons, if_neg h.1]
    exact ih h.2

/-- Reading a key after the entries of `k` have been overwritten. -/
theorem getKey_overwrite (m : StatsMap) (k : String) (v : Int) (key : String) :
    getKey (m.map fun kv => if kv.1 == k then (k, v) else kv) key =
      if key = k then (if (m.any fun kv => kv.1 == k) = true then some v else none)
      else getKey m key := by
  induction m with
  | nil => simp [getKey_nil]
  | cons x xs ih =>
    rw [List.map_cons, getKey_cons, ih, getKey_cons]
    by_cases hx : x.1 = k
    · by_cases hk : key = k <;> by_cases hxk : x.1 = key <;> simp_all [List.any_cons]
    · have hb : (x.1 == k) = false := by simpa using hx
      simp only [List.any_cons, hb, Bool.false_or, Bool.false_eq_true, if_false]
      by_cases hk : key = k
      · have hxk : ¬ x.1 = key := fun h => hx (h.trans hk)
        simp [hk, hxk, hx]
      · simp [hk]

/-- Reading a key after an entry has been appended. -/
theorem getKey_append (m : StatsMap) (k : String) (v : Int) (key : String) :
    getKey (m ++ [(k, v)]) key =
      (getKey m key).or (if key = k then some v else none) := by
  induction m with
  | nil =>
    rw [List.nil_append, getKey_cons, getKey_nil]
    by_cases hk : key = k
    · simp [hk]
    · have : ¬ k = key := fun h => hk h.symm
      simp [hk, this]
  | cons x xs ih =>
    rw [List.cons_append, getKey_cons, ih, getKey_cons]
    by_cases hxk : x.1 = key <;> simp [hxk]

/-- Reading a key after an assignment to a Go map. -/
theorem getKey_setKey (m : StatsMap) (k : String) (v : Int) (key : String) :
    getKey (userService.setKey m k v) key = if key = k then some v else getKey m key := by
  unfold userService.setKey
  by_cases hany : (m.any fun kv => kv.1 == k) = true
  · rw [if_pos hany, getKey_overwrite, if_pos hany]
  · rw [if_neg hany, getKey_append]
    by_cases hk : key = k
    · subst hk
      simp [getKey_absent m key hany]
    · simp [hk]

/-- Reading a key after the grouped counts have been folded into a map. -/
theorem getKey_foldl_setKey (count : String → Int) (groups : List String) (acc : StatsMap)
    (key : String) :
    getKey ((groups.map fun v => (v, count v)).foldl
        (fun sm v => userService.setKey sm v.1 v.2) acc) key =
      if key ∈ groups then some (count key) else getKey acc key := by
  induction groups generalizing acc with
  | nil => simp
  | cons g gs ih =>
    rw [List.map_cons, List.foldl_cons, ih, getKey_setKey]
    by_cases hmem : key ∈ gs
    · simp [hmem]
    · by_cases hk : key = g
      · simp [hk]
      · simp [hmem, hk]

/-- A query without condition selects every row. -/
theorem selected_all {ρ : Type} (rows : List ρ) (fault : Option String) (touch : ρ → ρ) :
    (⟨rows, [], fault, touch⟩ : Model ρ).selected = rows := by
  simp [Model.selected, Model.selects]

/-- A query with one condition selects the rows that satisfy it. -/
theorem selected_where {ρ : Type} (rows : List ρ) (fault : Option String) (touch : ρ → ρ)
    (p : ρ → Bool) :
    ((⟨rows, [], fault, touch⟩ : Model ρ).Where p).selected = rows.filter p := by
  simp only [Model.selected, Model.Where]
  apply List.filter_congr
  intro r _
  simp [Model.selects]

/-- The map `GetUserStats` builds from the selected rows holds the counts over
these rows. -/
theorem stats_of_selected (contents : List Content) (replies : List Reply) (key : String) :
    getKey
      (setKey
        (((contents.map fun r => r.Typ).dedup.map fun v =>
            (v, ((contents.filter fun r => r.Typ == v).length : Int))).foldl
          (fun sm v => setKey sm v.1 v.2) [])
        "message" (replies.length : Int)) key =
      countsOver contents replies key := by
  rw [getKey_setKey, getKey_foldl_setKey
    (fun v => ((contents.filter fun r => r.Typ == v).length : Int)), getKey_nil]
  unfold countsOver
  by_cases hk : key = "message"
  · simp [hk]
  · simp only [if_neg hk, List.mem_dedup, List.mem_map]
    by_cases hex : ∃ a ∈ contents, a.Typ = key
    · have hne : (contents.filter fun r => r.Typ == key).isEmpty = false := by
        obtain ⟨a, ha, hak⟩ := hex
        have hmem : a ∈ contents.filter fun r => r.Typ == key :=
          List.mem_filter.mpr ⟨ha, by simp [hak]⟩
        cases hl : contents.filter fun r => r.Typ == key with
        | nil => rw [hl] at hmem; exact absurd hmem (List.not_mem_nil _)
        | cons y ys => rfl
      simp [hex, hne]
    · have he : (contents.filter fun r => r.Typ == key).isEmpty = true := by
        rw [List.isEmpty_iff, List.filter_eq_nil_iff]
        intro a ha hak
        exact hex ⟨a, ha, by simpa using hak⟩
      simp [hex, he]

/-- On a working store `GetUserStats` returns the counts over the rows owned by
`userId` when `userId > 0` and `IsAdminShow` is false. -/
theorem GetUserStats_scoped (db : Store) (ctx : Ctx) (userId : Nat) (hfault : db.fault = none)
    (h : userId > 0 ∧ IsAdminShow ctx userId = false) :
    StatsAre (GetUserStats db ctx userId)
      (db.Content.filter fun r => r.UserId == userId)
      (db.Reply.filter fun r => r.UserId == userId) := by
  have hc : (decide (userId > 0) && !IsAdminShow ctx userId) = true := by simp [h.1, h.2]
  refine ⟨_, ?_, stats_of_selected _ _⟩
  simp only [GetUserStats, hc, if_true, Model.GroupCountAll, Model.CountOne, dao.Content,
    dao.Reply, hfault, selected_where]
  simp [Model.Where]

/-- On a working store `GetUserStats` returns the counts over all rows when
`userId` is 0 or `IsAdminShow` is true. -/
theorem GetUserStats_global (db : Store) (ctx : Ctx) (userId : Nat) (hfault : db.fault = none)
    (h : ¬ (userId > 0 ∧ IsAdminShow ctx userId = false)) :
    StatsAre (GetUserStats db ctx userId) db.Content db.Reply := by
  have hc : ¬ (decide (userId > 0) && !IsAdminShow ctx userId) = true := by
    intro hc
    simp only [Bool.and_eq_true, decide_eq_true_eq, Bool.not_eq_true'] at hc
    exact h hc
  refine ⟨_, ?_, stats_of_selected _ _⟩
  simp only [GetUserStats, hc, Bool.false_eq_true, if_false, Model.GroupCountAll,
    Model.CountOne, dao.Content, dao.Reply, hfault, selected_all]

/-- C1: on a working store, for every request context and every `userId`,
`GetUserStats` counts the content rows and the reply rows owned by `userId`
when `userId > 0` and `IsAdminShow ctx userId` is false, and all content rows
and all reply rows otherwise. In particular an authenticated admin with id 1
asking for user 1 gets the global counts, and an authenticated non-admin with
id 2 asking for user 2 gets the counts of the rows owned by user 2. -/
theorem GetUserStats_scope (db : Store) (hfault : db.fault = none) :
    (∀ (ctx : Ctx) (userId : Nat),
      (userId > 0 ∧ IsAdminShow ctx userId = false →
        StatsAre (GetUserStats db ctx userId)
          (db.Content.filter fun r => r.UserId == userId)
          (db.Reply.filter fun r => r.UserId == userId)) ∧
      (¬ (userId > 0 ∧ IsAdminShow ctx userId = false) →
        StatsAre (GetUserStats db ctx userId) db.Content db.Reply)) ∧
    (∀ (c : Context) (u : ContextUser), c.User = some u → u.Id = 1 → u.IsAdmin = true →
      StatsAre (GetUserStats db (some c) 1) db.Content db.Reply) ∧
    (∀ (c : Context) (u : ContextUser), c.User = some u → u.Id = 2 → u.IsAdmin = false →
      StatsAre (GetUserStats db (some c) 2)
        (db.Content.filter fun r => r.UserId == 2)
        (db.Reply.filter fun r => r.UserId == 2)) := by
  refine ⟨fun ctx userId => ⟨GetUserStats_scoped db ctx userId hfault,
    GetUserStats_global db ctx userId hfault⟩, ?_, ?_⟩
  · intro c u hu hid hadmin
    apply GetUserStats_global db (some c) 1 hfault
    have := IsAdminShow_self c u hu
    rw [hid, hadmin] at this
    simp [this]
  · intro c u hu hid hadmin
    apply GetUserStats_scoped db (some c) 2 hfault
    have := IsAdminShow_self c u hu
    rw [hid, hadmin] at this
    simp [this]

/-- Witness of C1: an admin with id 1 asks for user 1 and receives the counts
over the rows of both users. -/
theorem GetUserStats_scope_witness :
    StatsAre
      (GetUserStats
        ⟨[], [⟨1, "article", 1⟩, ⟨2, "article", 2⟩, ⟨3, "topic", 2⟩], [⟨1, 2⟩], none, 50⟩
        (some ⟨⟨⟨none, none, none⟩, none⟩, some ⟨1, "admin", "Admin", "", true⟩⟩) 1)
      [⟨1, "article", 1⟩, ⟨2, "article", 2⟩, ⟨3, "topic", 2⟩] [⟨1, 2⟩] :=
  (GetUserStats_scope
    ⟨[], [⟨1, "article", 1⟩, ⟨2, "article", 2⟩, ⟨3, "topic", 2⟩], [⟨1, 2⟩], none, 50⟩ rfl).2.1
    ⟨⟨⟨none, none, none⟩, none⟩, some ⟨1, "admin", "Admin", "", true⟩⟩
    ⟨1, "admin", "Admin", "", true⟩ rfl rfl rfl

/-! ### Profile updates and the session snapshot -/

/-- On a working store, an update under one condition rewrites the rows that
satisfy it and refreshes their update timestamp. -/
theorem update_where (db : Store) (hfault : db.fault = none) (p : User → Bool)
    (set : User → User) :
    ((dao.User db).Where p).Update set =
      .ok (db.User.map fun r => if p r then { set r with UpdatedAt := db.now } else r) := by
  simp [Model.Update, Model.Where, dao.User, hfault, Model.selects]

/-- The row found under an id after the rows with that id have been rewritten
by a function that keeps the id. -/
theorem find_after_update (rows : List User) (id : Nat) (set : User → User)
    (hset : ∀ r, (set r).Id = r.Id) :
    (rows.map fun r => if r.Id == id then set r else r).find? (fun r => r.Id == id) =
      (rows.find? fun r => r.Id == id).map set := by
  induction rows with
  | nil => rfl
  | cons x xs ih =>
    by_cases hx : x.Id = id
    · simp [List.find?, hx, hset]
    · have hb : (x.Id == id) = false := by simpa using hx
      simp only [List.map_cons, hb, Bool.false_eq_true, if_false, List.find?, ih]

/-- Value of `UpdateProfile` on a working store, for an authenticated user whose
new nickname no other user carries. -/
theorem UpdateProfile_eq (db : Store) (c : Context) (u : ContextUser)
    (inp : UserUpdateProfileInput) (hfault : db.fault = none) (huser : c.User = some u)
    (hfree : ¬ ∃ r ∈ db.User, r.Nickname = inp.Nickname ∧ r.Id ≠ u.Id) :
    UpdateProfile db (some c) inp =
      if u.Nickname = inp.Nickname then
        (.ok (), { db with User := db.User.map fun r =>
          if r.Id == u.Id then
            { r with
              Nickname := omitEmpty inp.Nickname r.Nickname
              Avatar := omitEmpty inp.Avatar r.Avatar
              UpdatedAt := db.now }
          else r }, some c)
      else
        match c.Session.fault with
        | some e => (.error (.sessionStorage e), db, some c)
        | none =>
          (.ok (), { db with User := db.User.map fun r =>
              if r.Id == u.Id then
                { r with
                  Nickname := omitEmpty inp.Nickname r.Nickname
                  Avatar := omitEmpty inp.Avatar r.Avatar
                  UpdatedAt := db.now }
              else r },
            some { c with Session := { c.Session with data :=
              { c.Session.data with
                SessionKeyUser :=
                  some { GetUser (some c) with Nickname := inp.Nickname } } } }) := by
  have hn : ¬ (0 : Int) < ((((dao.User db).Where fun r => r.Nickname == inp.Nickname).WhereNot
      fun r => r.Id == u.Id).selected.length : Int) := by
    rw [Model.selected, filter_length_pos_iff]
    rintro ⟨x, hx, hsel⟩
    simp [Model.selects, Model.Where, Model.WhereNot, dao.User] at hsel
    exact hfree ⟨x, hx, hsel.1, hsel.2⟩
  simp only [UpdateProfile, dao.Transaction, hfault, Context.GetUser, bizctx.Get, huser,
    update_where db hfault, Model.Count, gt_iff_lt]
  simp only [Model.Where, Model.WhereNot, dao.User, hfault] at hn ⊢
  rw [if_neg hn]
  by_cases hnick : u.Nickname = inp.Nickname
  · simp [hnick]
  · have hb : (u.Nickname != inp.Nickname) = true := by simpa using hnick
    simp only [hb, if_true, if_neg hnick, SetUser, bizctx.Get, Session.Set]
    cases hsf : c.Session.fault <;> simp [huser]

/-- A nickname carried by another user makes `UpdateProfile` fail. -/
theorem UpdateProfile_taken (db : Store) (c : Context) (u : ContextUser)
    (inp : UserUpdateProfileInput) (hfault : db.fault = none) (huser : c.User = some u)
    (htaken : ∃ r ∈ db.User, r.Nickname = inp.Nickname ∧ r.Id ≠ u.Id) :
    (UpdateProfile db (some c) inp).1 =
      .error (.New ("昵称\"" ++ inp.Nickname ++ "\"已被占用")) := by
  have hn : (0 : Int) < ((((dao.User db).Where fun r => r.Nickname == inp.Nickname).WhereNot
      fun r => r.Id == u.Id).selected.length : Int) := by
    rw [Model.selected, filter_length_pos_iff]
    obtain ⟨x, hx, h1, h2⟩ := htaken
    exact ⟨x, hx, by simp [Model.selects, Model.Where, Model.WhereNot, dao.User, h1, h2]⟩
  simp only [UpdateProfile, dao.Transaction, hfault, Context.GetUser, bizctx.Get, huser,
    Model.Count, gt_iff_lt]
  simp only [Model.Where, Model.WhereNot, dao.User, hfault] at hn ⊢
  rw [if_pos hn]

/-- A store fault makes a transaction fail before its body runs. -/
theorem Transaction_fault {σ : Type} (db : Store) (s : σ)
    (f : Store → σ → Except Error Unit × Store × σ) (e : String) (h : db.fault = some e) :
    dao.Transaction db s f = (.error (.store e), db, s) := by
  simp [dao.Transaction, h]

/-- With a non-empty nickname `UpdateProfile` keeps session and store in
agreement: from a state in which the current user has a persisted row and the
request-context user and the session user carry the same nickname, a successful
call leaves the persisted nickname equal to the one `GetUser` returns. -/
theorem UpdateProfile_nonempty_keeps_agreement (db : Store) (c : Context) (u : ContextUser)
    (inp : UserUpdateProfileInput) (r : User) (huser : c.User = some u)
    (hrow : persistedUser db u.Id = some r)
    (hagree : u.Nickname = (GetUser (some c)).Nickname) (hne : inp.Nickname ≠ "")
    (hok : (UpdateProfile db (some c) inp).1 = .ok ()) :
    (persistedUser (UpdateProfile db (some c) inp).2.1 u.Id).map (fun r => r.Nickname) =
      some (GetUser (UpdateProfile db (some c) inp).2.2).Nickname := by
  have hset : ∀ db1 : Store, db1.User = (db.User.map fun r =>
      if r.Id == u.Id then
        { r with
          Nickname := omitEmpty inp.Nickname r.Nickname
          Avatar := omitEmpty inp.Avatar r.Avatar
          UpdatedAt := db.now }
      else r) →
      (persistedUser db1 u.Id).map (fun r => r.Nickname) = some inp.Nickname := by
    intro db1 h1
    simp only [persistedUser] at hrow ⊢
    rw [h1, find_after_update db.User u.Id
      (fun r => { r with Nickname := omitEmpty inp.Nickname r.Nickname,
                         Avatar := omitEmpty inp.Avatar r.Avatar,
                         UpdatedAt := db.now }) (fun _ => rfl), hrow]
    simp [omitEmpty, hne]
  cases hf : db.fault with
  | some e =>
    rw [UpdateProfile, Transaction_fault db _ _ e hf] at hok
    cases hok
  | none =>
    by_cases hfree : ∃ r ∈ db.User, r.Nickname = inp.Nickname ∧ r.Id ≠ u.Id
    · rw [UpdateProfile_taken db c u inp hf huser hfree] at hok
      cases hok
    · have hres := UpdateProfile_eq db c u inp hf huser hfree
      by_cases hnick : u.Nickname = inp.Nickname
      · rw [if_pos hnick] at hres
        rw [hres]
        simp only
        rw [hset _ rfl, ← hagree, hnick]
      · cases hsf : c.Session.fault with
        | some e =>
          simp only [if_neg hnick, hsf] at hres
          rw [hres] at hok
          cases hok
        | none =>
          simp only [if_neg hnick, hsf] at hres
          rw [hres]
          simp only
          rw [hset _ rfl]
          simp [GetUser, bizctx.Get, Session.Get]

/-- C10, at the failing input: context, session and store agree on the nickname
`Neo`; `UpdateProfile` with an empty nickname and a new avatar succeeds; the
persisted nickname is still `Neo`, and `GetUser` returns the empty nickname. -/
theorem UpdateProfile_empty_nickname_desyncs_session :
    (UpdateProfile ⟨[⟨1, "neo", "d", "Neo", "/a.jpg", 0, false, 10, 10⟩], [], [], none, 50⟩
        (some ⟨⟨⟨some ⟨1, "neo", "d", "Neo", "/a.jpg", 0, false, 10, 10⟩, none, none⟩, none⟩,
          some ⟨1, "neo", "Neo", "/a.jpg", false⟩⟩)
        ⟨"", "/b.jpg"⟩).1 = .ok () ∧
    (persistedUser
        (UpdateProfile ⟨[⟨1, "neo", "d", "Neo", "/a.jpg", 0, false, 10, 10⟩], [], [], none, 50⟩
          (some ⟨⟨⟨some ⟨1, "neo", "d", "Neo", "/a.jpg", 0, false, 10, 10⟩, none, none⟩, none⟩,
            some ⟨1, "neo", "Neo", "/a.jpg", false⟩⟩)
          ⟨"", "/b.jpg"⟩).2.1 1).map (fun r => r.Nickname) = some "Neo" ∧
    (GetUser
        (UpdateProfile ⟨[⟨1, "neo", "d", "Neo", "/a.jpg", 0, false, 10, 10⟩], [], [], none, 50⟩
          (some ⟨⟨⟨some ⟨1, "neo", "d", "Neo", "/a.jpg", 0, false, 10, 10⟩, none, none⟩, none⟩,
            some ⟨1, "neo", "Neo", "/a.jpg", false⟩⟩)
          ⟨"", "/b.jpg"⟩).2.2).Nickname = "" ∧
    ("" : String) ≠ "Neo" := by
  exact ⟨rfl, rfl, rfl, by decide⟩

end Focus
